import Mathlib

/-!
Verification development for the native tool call adapter
(caarson/native_tool_call_adapter).

The definitions below are a shallow embedding of src/app.py and
src/config.py.  JSON event payloads are modelled structurally by records
holding exactly the fields the code reads; Python dictionary truthiness is
mirrored by explicit emptiness predicates.  The two collaborator modules
that are not part of src/ (parser_control and regex_replacement) enter the
model either as function parameters (where a claim does not depend on
their behaviour) or as definitions modelled from the spec (marked by a doc
comment beginning with the words Modelled from the spec).
-/

namespace NTCA

/-- Python truthiness of an optional string: None and the empty string are
falsy, every other string is truthy. -/
def pyTruthyStr : Option String → Bool
  | some s => s != ""
  | none => false

/-- The function object inside a streamed tool-call fragment
(delta.tool_calls[0].function).  The code reads it with
.get("name", "") and .get("arguments", "") (src/app.py lines 190-191);
the code accesses the function key unconditionally, so a fragment without
it (a Python crash) is outside the model. -/
structure ToolCallFunction where
  name : Option String
  arguments : Option String
deriving DecidableEq

/-- One element of delta.tool_calls as read by src/app.py lines 186-193. -/
structure ToolCallFragment where
  index : Option Nat
  id : Option String
  function : ToolCallFunction
deriving DecidableEq

/-- The delta object of a streamed choice, holding the fields the code
reads (src/app.py lines 172-175).  The extra flag records whether the
Python dict carries further keys, which matters only for the dict
truthiness test at line 178 (not delta). -/
structure Delta where
  role : Option String
  content : Option String
  tool_calls : Option (List ToolCallFragment)
  reasoning_content : Option String
  extra : Bool
deriving DecidableEq

/-- The empty delta dict, produced by choice.get("delta") or ... at
src/app.py line 172 when the key is absent. -/
def Delta.emptyDict : Delta := ⟨none, none, none, none, false⟩

/-- Python dict emptiness (falsiness) of a delta. -/
def Delta.isEmptyDict (d : Delta) : Bool :=
  d.role.isNone && d.content.isNone && d.tool_calls.isNone &&
    d.reasoning_content.isNone && !d.extra

/-- One element of the choices array of a backend event.  The code only
reads index and delta; finish_reason is kept because the backend places a
per-choice finish reason here and the claims quantify over its fate. -/
structure Choice where
  index : Option Nat
  delta : Option Delta
  finish_reason : Option String
deriving DecidableEq

/-- A parsed backend protocol event (the JSON payload of one data line).
Only the fields src/app.py reads or writes are modelled; re-serialization
forwards the record as a whole. -/
structure ChatEvent where
  choices : Option (List Choice)
  finish_reason : Option String
deriving DecidableEq

/-- choice = (data.get("choices") or [ default ])[0], src/app.py line 170:
a missing or empty choices array yields the empty choice dict. -/
def ChatEvent.choice0 (e : ChatEvent) : Choice :=
  match e.choices with
  | some (c :: _) => c
  | _ => ⟨none, none, none⟩

/-- delta = choice.get("delta") or the empty dict, src/app.py line 172. -/
def Choice.deltaDict (c : Choice) : Delta := c.delta.getD Delta.emptyDict

/-- tool_call = (tool_calls_in_delta or [ default ])[0], src/app.py line
186, combined with the truthiness test at line 189: returns the first
fragment when the array is present and non-empty.  A literal empty dict as
first element (falsy in Python) is not expressible in the model. -/
def toolCallsHead : Option (List ToolCallFragment) → Option ToolCallFragment
  | some (f :: _) => some f
  | _ => none

/-- Python truthiness of the tool_calls value (line 180): None and the
empty array are falsy. -/
def toolCallsTruthy : Option (List ToolCallFragment) → Bool
  | some (_ :: _) => true
  | _ => false

/-- The mutable locals of handle_stream_response, src/app.py
lines 137-144. -/
structure StreamState where
  buffer : String
  last_chunk : Option ChatEvent
  role : Option String
  choice_index : Nat
  tool_call_index : Nat
  tool_call_id : String
  tool_name : String
  reasoning_content_buffer : String
deriving DecidableEq

/-- Initial locals of handle_stream_response (src/app.py lines 137-144). -/
def initState : StreamState := ⟨"", none, none, 0, 0, "", "", ""⟩

/-- One outgoing protocol line of the stream handler.  A flush records the
four strings passed to parser.modify_tool_call_to_xml_message together
with the serialized carrier event; line is the per-event forward at
src/app.py line 199; done is the literal terminal sentinel line; raw is
the error body forwarded at line 134. -/
inductive OutEvent where
  | line (e : ChatEvent)
  | flush (tool_name buffer tool_call_id reasoning : String) (carrier : ChatEvent)
  | done
  | raw (body : String)
deriving DecidableEq

/-- Projection of a flush output onto the four strings handed to the tag
encoder. -/
def flushData : OutEvent → Option (String × String × String × String)
  | .flush n a i r _ => some (n, a, i, r)
  | _ => none

/-- The top-level finish reason of the carrier serialized by a flush
output. -/
def carrierFinish : OutEvent → Option (Option String)
  | .flush _ _ _ _ c => some c.finish_reason
  | _ => none

/-- last_chunk["choices"][0]["delta"]["content"] = modified_data,
src/app.py line 157.  In every reachable flush the carrier has a
non-empty choices array with a present delta (it was stored at line 194
for an event carrying a truthy tool-call delta); the fallback branches
make the model total. -/
def setDeltaContent (e : ChatEvent) (s : String) : ChatEvent :=
  match e.choices with
  | some (c :: cs) =>
      let d := { c.deltaDict with content := some s }
      let c2 := { c with delta := some d }
      { e with choices := some (c2 :: cs) }
  | _ => e

/-- The two collaborator functions the stream handler receives from
modules that are not under src/: parser_control gives
modify_tool_call_to_xml_message and regex_replacement gives
apply_replacement_to_completion.  The stream claims hold for every choice
of these functions, so they are model parameters. -/
structure StreamDeps where
  modify_tool_call_to_xml_message : String → String → String → String → String
  apply_replacement_to_completion : String → String

/-- create_tool_call, src/app.py lines 151-162: encode the accumulated
fragment, run the replacement transform, splice the text into the content
of the carrier (the stored last_chunk, mutated in place in Python, hence
also returned as the middle component), reset the accumulators.  When
last_chunk is None the Python code would crash; that state is unreachable
because a non-empty buffer implies a stored last_chunk. -/
def create_tool_call (dp : StreamDeps) (st : StreamState) :
    OutEvent × ChatEvent × StreamState :=
  let modified_data := dp.apply_replacement_to_completion
    (dp.modify_tool_call_to_xml_message st.tool_name st.buffer st.tool_call_id
      st.reasoning_content_buffer)
  let carrier := setDeltaContent (st.last_chunk.getD ⟨none, none⟩) modified_data
  (OutEvent.flush st.tool_name st.buffer st.tool_call_id
      st.reasoning_content_buffer carrier,
   carrier,
   { st with buffer := "", tool_name := "", tool_call_id := "",
             reasoning_content_buffer := "", last_chunk := some carrier })

/-- role_in_delta = delta.get("role", role), src/app.py line 173. -/
def deltaRole (st : StreamState) (d : Delta) : Option String :=
  match d.role with
  | some r => some r
  | none => st.role

/-- The reasoning text carried by one event
(delta.get("reasoning_content") or "", src/app.py line 175). -/
def eventReasoning (e : ChatEvent) : String :=
  (e.choice0.deltaDict.reasoning_content).getD ""

/-- The flush-before condition of src/app.py lines 176-180 without the
buffer guard: a changed choice index, an empty delta, a changed role, or
an absent (or empty) tool_calls array. -/
def flushBeforeTrig (st : StreamState) (e : ChatEvent) : Bool :=
  let c := e.choice0
  let d := c.deltaDict
  ((c.index.getD st.choice_index) != st.choice_index) || d.isEmptyDict ||
    (deltaRole st d != st.role) || !toolCallsTruthy d.tool_calls

/-- The event carries a tool-call fragment whose call index differs from
the stored one (src/app.py line 187; an absent index compares unequal to
the stored integer, as None does in Python). -/
def fragIndexChanged (st : StreamState) (e : ChatEvent) : Bool :=
  match toolCallsHead e.choice0.deltaDict.tool_calls with
  | some f => f.index != some st.tool_call_index
  | none => false

/-- A guarded flush: exactly the pattern of every create_tool_call
call site in src/app.py (lines 164-166, 181-182, 187-188, 195-196), each
of which combines its own condition with the non-emptiness of the
buffer before invoking create_tool_call on the current state. -/
def flushGuard (dp : StreamDeps) (cond : Bool) (st : StreamState) :
    List OutEvent × StreamState :=
  if cond && (st.buffer != "") then
    ([(create_tool_call dp st).1], (create_tool_call dp st).2.2)
  else ([], st)

/-- The assistant block of src/app.py lines 185-194: when the (updated)
role is assistant, a tool-call fragment with a changed call index first
flushes the open fragment (line 187; an absent fragment also passes the
None-unequal-integer test but only flushes on a non-empty buffer), and a
present fragment is then accumulated and the event stored as the carrier
(lines 189-194).  The boolean records whether accumulation happened,
which in Python makes last_chunk an alias of the current event. -/
def assistantBlock (dp : StreamDeps) (role_in_delta : Option String)
    (st2 : StreamState) (data : ChatEvent) : List OutEvent × StreamState × Bool :=
  if role_in_delta == some "assistant" then
    match toolCallsHead data.choice0.deltaDict.tool_calls with
    | some tool_call =>
        let q := flushGuard dp (tool_call.index != some st2.tool_call_index) st2
        let st4 : StreamState :=
          { q.2 with
            tool_name := q.2.tool_name ++ tool_call.function.name.getD "",
            buffer := q.2.buffer ++ tool_call.function.arguments.getD "",
            tool_call_id := q.2.tool_call_id ++ tool_call.id.getD "",
            tool_call_index := tool_call.index.getD q.2.tool_call_index,
            last_chunk := some data }
        (q.1, st4, true)
    | none =>
        let q := flushGuard dp true st2
        (q.1, q.2, false)
  else ([], st2, false)

/-- The event forwarded at src/app.py line 199, after the finish-reason
flush and the finish-reason remap of lines 195-198.  When the
finish-reason flush fired (cond and a non-empty buffer) in an iteration
that also accumulated a fragment (acc), the Python locals data and
last_chunk alias the same object, so the forwarded event is the carrier
mutated by create_tool_call; the remap of lines 197-198 then rewrites a
top-level tool_calls finish reason to stop. -/
def forwardedEvent (dp : StreamDeps) (cond : Bool) (P : StreamState)
    (acc : Bool) (e : ChatEvent) : ChatEvent :=
  let data3 : ChatEvent :=
    if (cond && (P.buffer != "")) && acc then (create_tool_call dp P).2.1 else e
  if data3.finish_reason == some "tool_calls" then
    { data3 with finish_reason := some "stop" }
  else data3

/-- Processing of one parsed data event, src/app.py lines 169-199, in
source order: accumulate reasoning (175), flush-before (176-182), update
choice index and role (183-184), the assistant block with the
index-change flush and fragment accumulation (185-194), the finish-reason
flush (195-196), the finish-reason remap (197-198), and the per-event
forward (199). -/
def stepEvent (dp : StreamDeps) (st : StreamState) (data : ChatEvent) :
    List OutEvent × StreamState :=
  let delta := data.choice0.deltaDict
  let choice_index_of_delta := data.choice0.index.getD st.choice_index
  let role_in_delta := deltaRole st delta
  let st0 : StreamState :=
    { st with reasoning_content_buffer :=
        st.reasoning_content_buffer ++ delta.reasoning_content.getD "" }
  let p1 := flushGuard dp (flushBeforeTrig st data) st0
  let st2 : StreamState :=
    { p1.2 with choice_index := choice_index_of_delta, role := role_in_delta }
  let p2 := assistantBlock dp role_in_delta st2 data
  let p3 := flushGuard dp (pyTruthyStr data.finish_reason) p2.2.1
  let data4 := forwardedEvent dp (pyTruthyStr data.finish_reason) p2.2.1 p2.2.2 data
  let st7 : StreamState :=
    if p2.2.2 then { p3.2 with last_chunk := some data4 } else p3.2
  (p1.1 ++ p2.1 ++ p3.1 ++ [OutEvent.line data4], st7)

/-- One upstream line as classified by src/app.py lines 148-169: the
terminal sentinel, a data line with a parseable JSON payload, or a line
without the data marker (skipped).  A data line whose payload does not
parse raises in the source and is outside the model. -/
inductive SseLine where
  | ev (e : ChatEvent)
  | done
  | other
deriving DecidableEq

/-- Processing of one upstream line: lines without the data marker are
skipped (line 148), the sentinel line flushes a pending fragment and is
forwarded literally (lines 164-168), and a data event runs stepEvent. -/
def stepLine (dp : StreamDeps) (st : StreamState) : SseLine → List OutEvent × StreamState
  | .other => ([], st)
  | .done => ((flushGuard dp true st).1 ++ [OutEvent.done], (flushGuard dp true st).2)
  | .ev e => stepEvent dp st e

/-- The output of the line loop with the disconnection polls stripped
(every poll answered false). -/
def runPure (dp : StreamDeps) (st : StreamState) : List SseLine → List OutEvent
  | [] => []
  | l :: ls => (stepLine dp st l).1 ++ runPure dp (stepLine dp st l).2 ls

/-- The final state of the line loop with the disconnection polls
stripped. -/
def runState (dp : StreamDeps) (st : StreamState) : List SseLine → StreamState
  | [] => st
  | l :: ls => runState dp (stepLine dp st l).2 ls

/-- The line loop of src/app.py lines 145-199: before each upstream line
the disconnection signal is polled (line 146, indexed by the position of
the line), and a positive answer ends the generator at once. -/
def runLines (dp : StreamDeps) (d : Nat → Bool) :
    Nat → StreamState → List SseLine → List OutEvent
  | _, _, [] => []
  | i, st, l :: ls =>
      if d i then []
      else (stepLine dp st l).1 ++ runLines dp d (i + 1) (stepLine dp st l).2 ls

/-- The upstream response seen by handle_stream_response: the error flag,
the body text used on the error path, and the line stream. -/
structure UpstreamResponse where
  is_error : Bool
  text : String
  lines : List SseLine

/-- handle_stream_response, src/app.py lines 126-199.  On a transport
error the raw body and the sentinel are forwarded without touching the
reconstruction machinery (lines 132-136); otherwise the line loop runs
from the initial state. -/
def handle_stream_response (dp : StreamDeps) (is_disconnected : Nat → Bool)
    (response : UpstreamResponse) : List OutEvent :=
  if response.is_error then [OutEvent.raw response.text, OutEvent.done]
  else runLines dp is_disconnected 0 initState response.lines

/-- The non-streaming branch of create_completion, src/app.py lines
234-247: on a backend error status the status code and body are returned
unchanged; otherwise the body is transformed.  The transform stands for
parser.modify_tool_calls_to_xml_messages applied with the completion
replacement (parser_control is not under src/), so it is a parameter. -/
def create_completion_non_streaming {α : Type} (modify : α → α)
    (status_code : Nat) (is_error : Bool) (body : α) : Nat × α :=
  if is_error then (status_code, body) else (status_code, modify body)

/-! ## Process-wide configuration (src/config.py) -/

/-- RuntimeConfig, src/config.py lines 6-11.  The default factories read
environment variables; the environment is a parameter of the model. -/
structure RuntimeConfig where
  target_base_url : String
  message_dump_path : Option String
  tool_dump_path : Option String
  disable_strict_schemas : Bool
  force_tool_calling : Bool
deriving DecidableEq

/-- The default RuntimeConfig built from an environment (the
default_factory lambdas of src/config.py; bool(os.getenv(x)) is false for
an unset or empty variable). -/
def RuntimeConfig.fromEnv (env : String → Option String) : RuntimeConfig :=
  { target_base_url := (env "TARGET_BASE_URL").getD "https://api.openai.com/v1",
    message_dump_path := env "MESSAGE_DUMP_PATH",
    tool_dump_path := env "TOOL_DUMP_PATH",
    disable_strict_schemas := pyTruthyStr (env "DISABLE_STRICT_SCHEMAS"),
    force_tool_calling := pyTruthyStr (env "FORCE_TOOL_CALLING") }

/-- get_config, src/config.py lines 16-20: lazily initialize the global
and return it.  The process global is modelled as an explicit
Option RuntimeConfig value threaded through the operations. -/
def get_config (env : String → Option String) (g : Option RuntimeConfig) :
    RuntimeConfig × Option RuntimeConfig :=
  match g with
  | some c => (c, some c)
  | none =>
      let c := RuntimeConfig.fromEnv env
      (c, some c)

/-- The update payload of update_config (the dict handed to
model_copy): each present field overrides the stored one. -/
structure ConfigUpdate where
  target_base_url : Option String
  message_dump_path : Option (Option String)
  tool_dump_path : Option (Option String)
  disable_strict_schemas : Option Bool
  force_tool_calling : Option Bool
deriving DecidableEq

/-- update_config, src/config.py lines 23-28: merge the update into the
current configuration and replace the global with the merged copy (the
stored object itself is never mutated). -/
def update_config (env : String → Option String) (g : Option RuntimeConfig)
    (data : ConfigUpdate) : RuntimeConfig × Option RuntimeConfig :=
  let cur := (get_config env g).1
  let merged : RuntimeConfig :=
    { target_base_url := data.target_base_url.getD cur.target_base_url,
      message_dump_path := data.message_dump_path.getD cur.message_dump_path,
      tool_dump_path := data.tool_dump_path.getD cur.tool_dump_path,
      disable_strict_schemas := data.disable_strict_schemas.getD cur.disable_strict_schemas,
      force_tool_calling := data.force_tool_calling.getD cur.force_tool_calling }
  (merged, some merged)

/-- The configuration reads made while one chat completion request is
handled: process_request calls get_config once (src/app.py line 90) and
the backend call reads get_config again when the URL is built (src/app.py
line 220 for streaming, line 237 otherwise).  Between the two reads the
event loop may run other tasks; betweenReads is the effect of whatever
runs there on the global. -/
def request_config_reads (env : String → Option String)
    (g0 : Option RuntimeConfig)
    (betweenReads : Option RuntimeConfig → Option RuntimeConfig) :
    RuntimeConfig × RuntimeConfig × Option RuntimeConfig :=
  let r1 := get_config env g0
  let g2 := betweenReads r1.2
  let r2 := get_config env g2
  (r1.1, r2.1, r2.2)

/-! ## The outbound request rewrite (process_request, src/app.py 86-123) -/

/-- Whether the character list starts with the pattern. -/
def startsWithChars : List Char → List Char → Bool
  | [], _ => true
  | _ :: _, [] => false
  | a :: as, b :: bs => a == b && startsWithChars as bs

/-- Whether the pattern occurs somewhere in the character list. -/
def containsSub (pat : List Char) : List Char → Bool
  | [] => startsWithChars pat []
  | c :: cs => startsWithChars pat (c :: cs) || containsSub pat cs

/-- Substring test on strings. -/
def strContains (hay needle : String) : Bool := containsSub needle.data hay.data

/-- Left-to-right non-overlapping replacement on character lists; the
fuel argument (instantiated with the length of the list) only drives the
structural recursion. -/
def replaceChars (pat rep : List Char) : Nat → List Char → List Char
  | 0, l => l
  | _, [] => []
  | fuel + 1, c :: cs =>
      if startsWithChars pat (c :: cs) then
        rep ++ replaceChars pat rep fuel (cs.drop (pat.length - 1))
      else c :: replaceChars pat rep fuel cs

/-- Literal find-and-replace on strings (all occurrences, left to right,
non-overlapping). -/
def strReplaceAll (s pat rep : String) : String :=
  if pat.data.isEmpty then s else ⟨replaceChars pat.data rep.data s.data.length s.data⟩

/-- One configured replacement rule.  Modelled from the spec:
regex_replacement is not under src/; spec section 3 describes a rule as a
pattern with a replacement template plus the data for the inverse rule.
Regex matching is modelled as literal substring matching. -/
structure ReplacementRule where
  pattern : String
  replacement : String
deriving DecidableEq

/-- Modelled from the spec: the forward pass of the Replacement Pipeline
(spec section 4.5) runs each configured rule over the text in declaration
order, later rules seeing the output of earlier ones. -/
def applyRules (rules : List ReplacementRule) (s : String) : String :=
  rules.foldl (fun acc r => strReplaceAll acc r.pattern r.replacement) s

/-- Modelled from the spec: the completion-side transform of the
Replacement Pipeline runs the matching inverse rules (spec section 4.5). -/
def applyRulesInv (rules : List ReplacementRule) (s : String) : String :=
  rules.foldr (fun r acc => strReplaceAll acc r.replacement r.pattern) s

/-- A backend-facing tool declaration.  Only its identity matters for the
claims, so it is modelled by the function name it declares. -/
structure ToolSchema where
  name : String
deriving DecidableEq

/-- The bound result of schema synthesis for one request (spec section 3,
ParserContext): the synthesized schemas plus the tool names that drive
tag decoding. -/
structure ParserCtx where
  schemas : List ToolSchema
  tool_names : List String
deriving DecidableEq

/-- One element of a multipart message content array: a dict with a text
key, or anything else (skipped by the join at src/app.py lines 93-100). -/
inductive ContentPart where
  | textPart (t : String)
  | otherPart
deriving DecidableEq

/-- Message content: a plain string or a multipart array
(src/app.py line 93 distinguishes exactly these two shapes). -/
inductive MsgContent where
  | str (s : String)
  | parts (l : List ContentPart)
deriving DecidableEq

/-- Join of the text parts with newlines, src/app.py lines 94-100. -/
def joinTextParts : List ContentPart → List String
  | [] => []
  | ContentPart.textPart t :: rest => t :: joinTextParts rest
  | ContentPart.otherPart :: rest => joinTextParts rest

/-- Newline join, modelling str.join at src/app.py line 94. -/
def joinWithNewline : List String → String
  | [] => ""
  | [s] => s
  | s :: rest => s ++ "\n" ++ joinWithNewline rest

/-- The text of a message as the tag scanner and the prompt extraction
see it. -/
def msgText : MsgContent → String
  | .str s => s
  | .parts l => joinWithNewline (joinTextParts l)

/-- A chat message.  Outbound native tool calls attached by the message
rewriter are modelled by the list of decoded tool names. -/
structure Message where
  role : String
  content : MsgContent
  tool_calls : Option (List String)
deriving DecidableEq

/-- A chat completion request: the fields process_request touches. -/
structure ChatRequest where
  messages : List Message
  tools : Option (List ToolSchema)
  tool_choice : Option String
deriving DecidableEq

/-- Whether a message text contains an embedded-tag invocation of one of
the declared tools (an opening tag of a declared tool name). -/
def hasEmbeddedCall (names : List String) (m : Message) : Bool :=
  names.any (fun n => strContains (msgText m.content) ("<" ++ n ++ ">"))

/-- Modelled from the spec: Parser.modify_xml_messages_to_tool_calls
(parser_control is not under src/).  Spec section 4.3: every message whose
text contains an embedded-tag tool invocation becomes an assistant
message carrying a tool_calls array decoded from the tags; messages
without embedded tags pass through unchanged; the order of messages is
preserved.  Decoding of the tag bodies is abstracted: the decoded calls
are represented by the names of the tools whose opening tags occur. -/
def modify_xml_messages_to_tool_calls (names : List String)
    (msgs : List Message) : List Message :=
  msgs.map (fun m =>
    if hasEmbeddedCall names m then
      { role := "assistant", content := m.content,
        tool_calls := some (names.filter
          (fun n => strContains (msgText m.content) ("<" ++ n ++ ">"))) }
    else m)

/-- Content map helper for the replacement pass. -/
def mapContent (f : String → String) : MsgContent → MsgContent
  | .str s => .str (f s)
  | .parts l => .parts (l.map (fun p =>
      match p with
      | ContentPart.textPart t => ContentPart.textPart (f t)
      | ContentPart.otherPart => ContentPart.otherPart))

/-- Modelled from the spec: apply_replacement_to_messages
(regex_replacement is not under src/).  Spec section 4.5: the forward
rules run over the whole outgoing message set, and the returned transform
applies the inverse rules to completion text. -/
def apply_replacement_to_messages (rules : List ReplacementRule)
    (msgs : List Message) : List Message × (String → String) :=
  (msgs.map (fun m => { m with content := mapContent (applyRules rules) m.content }),
   applyRulesInv rules)

/-- The per-message effect of the outbound rewrite on messages other than
the first: the spec-modelled tag rewrite followed by the spec-modelled
replacement pass. -/
def outboundMessageStep (names : List String) (rules : List ReplacementRule)
    (m : Message) : Message :=
  let t := if hasEmbeddedCall names m then
      { role := "assistant", content := m.content,
        tool_calls := some (names.filter
          (fun n => strContains (msgText m.content) ("<" ++ n ++ ">"))) }
    else m
  { t with content := mapContent (applyRules rules) t.content }

/-- process_request, src/app.py lines 86-123.  build stands for
parser_control.build_tool_parser (not under src/): it maps the system
prompt and the strict flag to the bound parser context and the rewritten
prompt.  The file dumps of lines 116-121 are I/O effects outside the
model.  When the message list is empty or the first role is neither
system nor user, the source skips the binding of parser and then raises
NameError at line 111; the model returns none there. -/
def process_request (cfg : RuntimeConfig)
    (build : String → Bool → ParserCtx × String)
    (rules : List ReplacementRule) (req : ChatRequest) :
    Option (ChatRequest × ParserCtx × (String → String)) :=
  match req.messages with
  | [] => none
  | m0 :: rest =>
      if m0.role == "system" || m0.role == "user" then
        let system_prompt := msgText m0.content
        let pr := build system_prompt (!cfg.disable_strict_schemas)
        let parserCtx := pr.1
        let msgs1 : List Message :=
          { role := "system", content := MsgContent.str pr.2,
            tool_calls := m0.tool_calls } :: rest
        let tools1 : Option (List ToolSchema) :=
          if parserCtx.schemas != [] then
            some ((req.tools.getD []) ++ parserCtx.schemas)
          else req.tools
        let tool_choice1 : Option String :=
          if cfg.force_tool_calling &&
              (match tools1 with | some (_ :: _) => true | _ => false) then
            some "required"
          else req.tool_choice
        let msgs2 := modify_xml_messages_to_tool_calls parserCtx.tool_names msgs1
        let prm := apply_replacement_to_messages rules msgs2
        some ({ messages := prm.1, tools := tools1, tool_choice := tool_choice1 },
              parserCtx, prm.2)
      else none

/-! ## Canonical event families and concrete inputs used by the claims -/

/-- A stream dependency instance with a concrete encoder: used to run the
model on closed inputs (the claims do not depend on the encoding). -/
def idDeps : StreamDeps :=
  ⟨fun n a i r => n ++ a ++ i ++ r, fun s => s⟩

/-- A canonical fragment event of a tool call being streamed on choice 0
with call index k: the delta carries the assistant role and one tool-call
fragment holding the given name piece, arguments piece and id piece. -/
def mkFragEvent (k : Nat) (t : String × String × String) : ChatEvent :=
  let f : ToolCallFunction := { name := some t.1, arguments := some t.2.1 }
  let frag : ToolCallFragment := { index := some k, id := some t.2.2, function := f }
  let d : Delta := { role := some "assistant", content := none,
                     tool_calls := some [frag], reasoning_content := none,
                     extra := false }
  let c : Choice := { index := some 0, delta := some d, finish_reason := none }
  { choices := some [c], finish_reason := none }

/-- A terminal finish-reason event on choice 0 (empty delta, finish
reason placed where src/app.py line 195 reads it). -/
def finishEvent : ChatEvent :=
  let c : Choice := { index := some 0, delta := none, finish_reason := none }
  { choices := some [c], finish_reason := some "stop" }

/-- The handler state while a tool call with call index k is being
accumulated on choice 0. -/
def mkAccSt (k : Nat) (b n i r : String) (lc : Option ChatEvent) : StreamState :=
  { buffer := b, last_chunk := lc, role := some "assistant", choice_index := 0,
    tool_call_index := k, tool_call_id := i, tool_name := n,
    reasoning_content_buffer := r }

/-- Concatenation of a projection over the fragment triples. -/
def catWith (f : String × String × String → String) :
    List (String × String × String) → String
  | [] => ""
  | t :: ts => f t ++ catWith f ts

/-- Concatenated name pieces of a fragment sequence. -/
def namesCat (l : List (String × String × String)) : String := catWith (fun t => t.1) l

/-- Concatenated arguments pieces of a fragment sequence. -/
def argsCat (l : List (String × String × String)) : String := catWith (fun t => t.2.1) l

/-- Concatenated id pieces of a fragment sequence. -/
def idsCat (l : List (String × String × String)) : String := catWith (fun t => t.2.2) l

/-- A backend event whose delta carries both a tool-call fragment and
reasoning text. -/
def fragWithReasoningEvent : ChatEvent :=
  let f : ToolCallFunction := { name := some "read_file", arguments := some "path=x" }
  let frag : ToolCallFragment := { index := some 0, id := some "call0", function := f }
  let d : Delta := { role := some "assistant", content := none,
                     tool_calls := some [frag],
                     reasoning_content := some "thinking", extra := false }
  let c : Choice := { index := some 0, delta := some d, finish_reason := none }
  { choices := some [c], finish_reason := none }

/-- A backend event that places the tool-invocation finish reason inside
the choice object, where the protocol actually carries it. -/
def choiceFinishEvent : ChatEvent :=
  let c : Choice := { index := some 0, delta := none,
                      finish_reason := some "tool_calls" }
  { choices := some [c], finish_reason := none }

/-- A backend event that both carries a tool-call fragment and the
top-level tool-invocation finish reason: the flush it triggers serializes
the carrier before the remap of line 197 runs. -/
def fragWithFinishEvent : ChatEvent :=
  let f : ToolCallFunction := { name := some "f", arguments := some "a=1" }
  let frag : ToolCallFragment := { index := some 0, id := some "id1", function := f }
  let d : Delta := { role := some "assistant", content := none,
                     tool_calls := some [frag], reasoning_content := none,
                     extra := false }
  let c : Choice := { index := some 0, delta := some d, finish_reason := none }
  { choices := some [c], finish_reason := some "tool_calls" }

/-- Rules, build function, configuration and request used by the
outbound-rewrite counterexample. -/
def cexRules : List ReplacementRule := [⟨"foo", "bar"⟩]

/-- A build function that finds no tool-definition block: empty context,
prompt unchanged (spec section 4.1). -/
def cexBuild : String → Bool → ParserCtx × String := fun s _ => (⟨[], []⟩, s)

/-- A concrete configuration with all flags off. -/
def cexCfg : RuntimeConfig :=
  ⟨"https://api.openai.com/v1", none, none, false, false⟩

/-- A request whose second message is untagged but matched by the
configured replacement rule. -/
def cexReq : ChatRequest :=
  ⟨[⟨"system", MsgContent.str "hello", none⟩,
    ⟨"user", MsgContent.str "say foo now", none⟩], none, none⟩

/-- The configuration update used by the interleaving counterexample. -/
def cexUpdate : ConfigUpdate :=
  ⟨some "http://changed.example", none, none, none, none⟩

/-! ## Theorems -/

/-- C5: when the backend returns a transport-level error status, the
streaming handler forwards the error body as one line followed by the
terminal sentinel with no flush, and the non-streaming branch returns the
backend status and body unchanged. -/
theorem backend_error_passthrough {α : Type} (dp : StreamDeps) (d : Nat → Bool)
    (t : String) (lines : List SseLine) (modify : α → α) (status : Nat) (body : α) :
    handle_stream_response dp d ⟨true, t, lines⟩ = [OutEvent.raw t, OutEvent.done]
    ∧ (handle_stream_response dp d ⟨true, t, lines⟩).filterMap flushData = []
    ∧ create_completion_non_streaming modify status true body = (status, body) :=
  ⟨rfl, rfl, rfl⟩

/-- C8 (amended): within one request each configuration read returns the
then-current global; when nothing runs between the snapshot taken by
process_request and the read made when the backend call is issued, both
reads observe the same configuration value. -/
theorem no_update_between_reads_same_config (env : String → Option String)
    (g0 : Option RuntimeConfig) :
    (request_config_reads env g0 (fun g => g)).1
      = (request_config_reads env g0 (fun g => g)).2.1 := by
  cases g0 <;> rfl

/-- C8 counterexample: an update_config call that runs between the two
configuration reads of one request makes the request observe two
different configuration values, refuting the claim that every
configuration read during one request observes the same value. -/
theorem interleaved_update_changes_reads_cex :
    (request_config_reads (fun _ => none) none
        (fun g => (update_config (fun _ => none) g cexUpdate).2)).1.target_base_url
      = "https://api.openai.com/v1"
    ∧ (request_config_reads (fun _ => none) none
        (fun g => (update_config (fun _ => none) g cexUpdate).2)).2.1.target_base_url
      = "http://changed.example"
    ∧ (request_config_reads (fun _ => none) none
        (fun g => (update_config (fun _ => none) g cexUpdate).2)).1
      ≠ (request_config_reads (fun _ => none) none
        (fun g => (update_config (fun _ => none) g cexUpdate).2)).2.1 := by
  refine ⟨rfl, rfl, ?_⟩
  decide

/-- C10: process_request succeeds exactly when the message list is
non-empty and the first message has role system or user; otherwise the
source raises (the parser name is never bound before its use at line
111), modelled by none. -/
theorem process_request_first_role_guard (cfg : RuntimeConfig)
    (build : String → Bool → ParserCtx × String) (rules : List ReplacementRule)
    (req : ChatRequest) :
    (process_request cfg build rules req).isSome ↔
      ∃ m0 rest, req.messages = m0 :: rest ∧ (m0.role = "system" ∨ m0.role = "user") := by
  rcases req with ⟨msgs, tools, tc⟩
  cases msgs with
  | nil => simp [process_request]
  | cons m0 rest =>
      by_cases h : (m0.role == "system" || m0.role == "user") = true
      · simp only [process_request, h, if_true, Option.isSome_some, true_iff]
        refine ⟨m0, rest, rfl, ?_⟩
        simpa using h
      · simp only [process_request, h, if_false, Option.isSome_none,
          Bool.false_eq_true, false_iff]
        rintro ⟨m1, rest1, hmr, hrole⟩
        injection hmr with hm hr
        subst hm
        apply h
        simpa using hrole

/-- The line loop with a disconnection signal that stays silent for the
first n polls and fires at poll n produces exactly the output of the pure
loop on the first n lines: nothing is emitted after the signal fires and
no pending fragment is flushed. -/
theorem runLines_agree_take (dp : StreamDeps) (d : Nat → Bool) :
    ∀ (ls : List SseLine) (n i0 : Nat) (st : StreamState),
      (∀ j, j < n → d (i0 + j) = false) → d (i0 + n) = true →
      runLines dp d i0 st ls = runPure dp st (ls.take n) := by
  intro ls
  induction ls with
  | nil =>
      intro n i0 st h1 h2
      simp [runLines, runPure]
  | cons l ls ih =>
      intro n i0 st h1 h2
      cases n with
      | zero =>
          have hd : d i0 = true := by simpa using h2
          simp [runLines, hd, runPure]
      | succ m =>
          have hd : d i0 = false := by
            have := h1 0 (Nat.succ_pos m)
            simpa using this
          have harg : ∀ j, j < m → d (i0 + 1 + j) = false := by
            intro j hj
            have := h1 (j + 1) (by omega)
            have he : i0 + (j + 1) = i0 + 1 + j := by omega
            rwa [he] at this
          have harg2 : d (i0 + 1 + m) = true := by
            have he : i0 + (m + 1) = i0 + 1 + m := by omega
            rwa [he] at h2
          simp only [runLines, hd, Bool.false_eq_true, if_false, List.take_succ_cons,
            runPure]
          rw [ih m (i0 + 1) (stepLine dp st l).2 harg harg2]

/-- C6: the stream handler polls the disconnection signal before each
upstream line; when the signal first fires at line i, the output equals
the pure processing of the first i lines only — nothing further is
emitted and no still-open fragment is flushed. -/
theorem disconnect_stops_output (dp : StreamDeps) (d : Nat → Bool) (t : String)
    (lines : List SseLine) (i : Nat)
    (h1 : ∀ j, j < i → d j = false) (h2 : d i = true) :
    handle_stream_response dp d ⟨false, t, lines⟩
      = runPure dp initState (lines.take i) := by
  show runLines dp d 0 initState lines = _
  refine runLines_agree_take dp d lines i 0 initState ?_ ?_
  · intro j hj
    simpa using h1 j hj
  · simpa using h2

/-- C6 witness: a concrete three-line stream with the signal firing at
the second poll produces exactly the output of the first line (one
forwarded event, no flush of the open fragment). -/
theorem disconnect_stops_output_w :
    (∀ j, j < 1 → ((fun j => j == 1) j) = false) ∧ ((fun j => j == 1) 1) = true ∧
    handle_stream_response idDeps (fun j => j == 1)
        ⟨false, "", [SseLine.ev (mkFragEvent 0 ("a", "y", "ca")),
          SseLine.ev finishEvent, SseLine.done]⟩
      = runPure idDeps initState
          ([SseLine.ev (mkFragEvent 0 ("a", "y", "ca")),
            SseLine.ev finishEvent, SseLine.done].take 1) := by
  refine ⟨?_, rfl, ?_⟩
  · intro j hj
    rcases Nat.lt_one_iff.mp hj with rfl
    rfl
  · exact disconnect_stops_output idDeps (fun j => j == 1) ""
      [SseLine.ev (mkFragEvent 0 ("a", "y", "ca")), SseLine.ev finishEvent, SseLine.done]
      1
      (fun j hj => by rcases Nat.lt_one_iff.mp hj with rfl; rfl)
      (by rfl)

/-- Every output of a guarded flush is a flush event carrying a
non-empty arguments buffer (the guard includes the buffer test that every
create_tool_call call site in the source performs). -/
theorem flushGuard_mem (dp : StreamDeps) (c : Bool) (st : StreamState)
    (o : OutEvent) (h : o ∈ (flushGuard dp c st).1) :
    ∃ n a i r cc, o = OutEvent.flush n a i r cc ∧ a ≠ "" := by
  unfold flushGuard at h
  split at h
  · rename_i hc
    simp only [List.mem_singleton] at h
    subst h
    refine ⟨st.tool_name, st.buffer, st.tool_call_id,
      st.reasoning_content_buffer, _, rfl, ?_⟩
    have hc2 : c = true ∧ (st.buffer != "") = true := by simpa using hc
    exact bne_iff_ne.mp hc2.2
  · simp at h

/-- Splicing synthetic text into the carrier leaves the tool_calls field
of the first delta unchanged. -/
theorem setDeltaContent_tool_calls (e : ChatEvent) (s : String) :
    (setDeltaContent e s).choice0.deltaDict.tool_calls
      = e.choice0.deltaDict.tool_calls := by
  rcases e with ⟨choices, fin⟩
  cases choices with
  | none => rfl
  | some l =>
      cases l with
      | nil => rfl
      | cons c cs => simp [setDeltaContent, ChatEvent.choice0, Choice.deltaDict]

/-- Splicing synthetic text into the carrier leaves the
reasoning_content field of the first delta unchanged. -/
theorem setDeltaContent_reasoning (e : ChatEvent) (s : String) :
    (setDeltaContent e s).choice0.deltaDict.reasoning_content
      = e.choice0.deltaDict.reasoning_content := by
  rcases e with ⟨choices, fin⟩
  cases choices with
  | none => rfl
  | some l =>
      cases l with
      | nil => rfl
      | cons c cs => simp [setDeltaContent, ChatEvent.choice0, Choice.deltaDict]

/-- Every output of the assistant block is a flush event with a
non-empty arguments buffer. -/
theorem assistantBlock_mem (dp : StreamDeps) (rid : Option String)
    (st2 : StreamState) (data : ChatEvent) (o : OutEvent)
    (h : o ∈ (assistantBlock dp rid st2 data).1) :
    ∃ n a i r cc, o = OutEvent.flush n a i r cc ∧ a ≠ "" := by
  unfold assistantBlock at h
  split at h
  · split at h
    · exact flushGuard_mem _ _ _ _ h
    · exact flushGuard_mem _ _ _ _ h
  · simp at h

/-- When the assistant block reports an accumulation, the state it
returns stores the current event as the carrier (src/app.py line 194). -/
theorem assistantBlock_acc_lastChunk (dp : StreamDeps) (rid : Option String)
    (st2 : StreamState) (data : ChatEvent)
    (h : (assistantBlock dp rid st2 data).2.2 = true) :
    (assistantBlock dp rid st2 data).2.1.last_chunk = some data := by
  by_cases hr : (rid == some "assistant") = true
  · cases htc : toolCallsHead data.choice0.deltaDict.tool_calls with
    | none => simp [assistantBlock, hr, htc] at h
    | some tc => simp [assistantBlock, hr, htc]
  · simp [assistantBlock, hr] at h

/-- The forwarded event never carries the top-level tool-invocation
finish reason, and its first delta keeps the tool_calls and
reasoning_content fields of the backend event it re-serializes. -/
theorem forwardedEvent_props (dp : StreamDeps) (cond : Bool) (P : StreamState)
    (acc : Bool) (e : ChatEvent) (hacc : acc = true → P.last_chunk = some e) :
    (forwardedEvent dp cond P acc e).finish_reason ≠ some "tool_calls"
    ∧ (forwardedEvent dp cond P acc e).choice0.deltaDict.tool_calls
        = e.choice0.deltaDict.tool_calls
    ∧ (forwardedEvent dp cond P acc e).choice0.deltaDict.reasoning_content
        = e.choice0.deltaDict.reasoning_content := by
  unfold forwardedEvent
  by_cases hca : ((cond && (P.buffer != "")) && acc) = true
  · have ha : acc = true := by
      have := hca
      simp only [Bool.and_eq_true] at this
      exact this.2
    have hlc : P.last_chunk = some e := hacc ha
    have hcar : (create_tool_call dp P).2.1
        = setDeltaContent e (dp.apply_replacement_to_completion
            (dp.modify_tool_call_to_xml_message P.tool_name P.buffer
              P.tool_call_id P.reasoning_content_buffer)) := by
      unfold create_tool_call
      rw [hlc]
      rfl
    simp only [hca, if_true, hcar]
    split
    · refine ⟨by simp, ?_, ?_⟩
      · simpa using setDeltaContent_tool_calls e _
      · simpa using setDeltaContent_reasoning e _
    · rename_i hne
      refine ⟨?_, setDeltaContent_tool_calls e _, setDeltaContent_reasoning e _⟩
      exact beq_eq_false_iff_ne.mp (Bool.not_eq_true _ ▸ Bool.of_not_eq_true hne)
  · simp only [Bool.not_eq_true] at hca
    simp only [hca, Bool.false_eq_true, if_false]
    split
    · exact ⟨by simp, rfl, rfl⟩
    · rename_i hne
      refine ⟨?_, rfl, rfl⟩
      exact beq_eq_false_iff_ne.mp (Bool.not_eq_true _ ▸ Bool.of_not_eq_true hne)

/-- Classification of the outputs of one data event: each is either the
forwarded line (which never carries the top-level tool-invocation finish
reason and keeps the tool-call and reasoning fields of its source) or a
flush with non-empty arguments. -/
theorem stepEvent_mem (dp : StreamDeps) (st : StreamState) (e : ChatEvent)
    (o : OutEvent) (ho : o ∈ (stepEvent dp st e).1) :
    (∃ e2, o = OutEvent.line e2
       ∧ e2.finish_reason ≠ some "tool_calls"
       ∧ e2.choice0.deltaDict.tool_calls = e.choice0.deltaDict.tool_calls
       ∧ e2.choice0.deltaDict.reasoning_content = e.choice0.deltaDict.reasoning_content)
    ∨ (∃ n a i r c, o = OutEvent.flush n a i r c ∧ a ≠ "") := by
  unfold stepEvent at ho
  simp only [List.mem_append, List.mem_singleton] at ho
  rcases ho with ((h1 | h2) | h3) | h4
  · exact Or.inr (flushGuard_mem _ _ _ _ h1)
  · exact Or.inr (assistantBlock_mem _ _ _ _ _ h2)
  · exact Or.inr (flushGuard_mem _ _ _ _ h3)
  · left
    refine ⟨_, h4, ?_⟩
    exact forwardedEvent_props dp _ _ _ e
      (assistantBlock_acc_lastChunk dp _ _ e)

/-- Classification of the outputs of the streaming line loop: each is
the sentinel, a forwarded line without the top-level tool-invocation
finish reason, or a flush with non-empty arguments. -/
theorem runLines_mem (dp : StreamDeps) (d : Nat → Bool) :
    ∀ (ls : List SseLine) (i : Nat) (st : StreamState) (o : OutEvent),
      o ∈ runLines dp d i st ls →
      o = OutEvent.done
      ∨ (∃ e2, o = OutEvent.line e2 ∧ e2.finish_reason ≠ some "tool_calls")
      ∨ (∃ n a i2 r c, o = OutEvent.flush n a i2 r c ∧ a ≠ "") := by
  intro ls
  induction ls with
  | nil => intro i st o ho; simp [runLines] at ho
  | cons l ls ih =>
      intro i st o ho
      unfold runLines at ho
      split at ho
      · simp at ho
      · rcases List.mem_append.mp ho with hl | hr
        · cases l with
          | other => simp [stepLine] at hl
          | done =>
              have hl2 : o ∈ (flushGuard dp true st).1 ∨ o = OutEvent.done := by
                simpa [stepLine] using hl
              rcases hl2 with hf | hd
              · exact Or.inr (Or.inr (flushGuard_mem _ _ _ _ hf))
              · exact Or.inl hd
          | ev e =>
              rcases stepEvent_mem dp st e o hl with ⟨e2, he, hf, _, _⟩ | hfl
              · exact Or.inr (Or.inl ⟨e2, he, hf⟩)
              · exact Or.inr (Or.inr hfl)
        · exact ih (i + 1) (stepLine dp st l).2 o hr

/-- C1 (amended): the per-event line the reconstructor forwards is a
re-serialization of the backend event whose delta keeps the tool_calls
and reasoning_content fields unchanged — the reconstructor does not
clear them before forwarding. -/
theorem forwarded_line_keeps_delta_fields (dp : StreamDeps) (st : StreamState)
    (e : ChatEvent) (o : OutEvent) (e2 : ChatEvent)
    (ho : o ∈ (stepEvent dp st e).1) (he : o = OutEvent.line e2) :
    e2.choice0.deltaDict.tool_calls = e.choice0.deltaDict.tool_calls
    ∧ e2.choice0.deltaDict.reasoning_content
        = e.choice0.deltaDict.reasoning_content := by
  subst he
  rcases stepEvent_mem dp st e _ ho with ⟨e3, he3, _, htc, hrc⟩ | ⟨n, a, i, r, c, hfl, _⟩
  · injection he3 with h
    subst h
    exact ⟨htc, hrc⟩
  · exact OutEvent.noConfusion hfl

/-- C1 witness: the theorem applied to a concrete fragment event from
the initial state. -/
theorem forwarded_line_keeps_delta_fields_w :
    OutEvent.line fragWithReasoningEvent
      ∈ (stepEvent idDeps initState fragWithReasoningEvent).1
    ∧ (fragWithReasoningEvent.choice0.deltaDict.tool_calls
        = fragWithReasoningEvent.choice0.deltaDict.tool_calls
       ∧ fragWithReasoningEvent.choice0.deltaDict.reasoning_content
        = fragWithReasoningEvent.choice0.deltaDict.reasoning_content) :=
  ⟨by decide, forwarded_line_keeps_delta_fields idDeps initState
      fragWithReasoningEvent _ fragWithReasoningEvent (by decide) rfl⟩

/-- C1 counterexample: a fragment event is forwarded with its tool_calls
array and reasoning_content field intact, so a forwarded line does carry
them, refuting the claim that they are cleared before forwarding. -/
theorem forwarded_line_leaks_tool_calls_cex :
    handle_stream_response idDeps (fun _ => false)
        ⟨false, "", [SseLine.ev fragWithReasoningEvent]⟩
      = [OutEvent.line fragWithReasoningEvent]
    ∧ fragWithReasoningEvent.choice0.deltaDict.tool_calls ≠ none
    ∧ fragWithReasoningEvent.choice0.deltaDict.reasoning_content ≠ none := by
  decide

/-- C2 (amended): every per-event line the stream handler forwards has a
top-level finish reason different from tool_calls (the remap of
src/app.py lines 197-198).  A finish reason placed inside a choice object
is not inspected, and the flush line is serialized before the remap; see
the counterexample. -/
theorem forwarded_line_top_finish_not_tool_calls (dp : StreamDeps)
    (d : Nat → Bool) (r : UpstreamResponse) (o : OutEvent) (e2 : ChatEvent)
    (ho : o ∈ handle_stream_response dp d r) (he : o = OutEvent.line e2) :
    e2.finish_reason ≠ some "tool_calls" := by
  subst he
  unfold handle_stream_response at ho
  split at ho
  · simp only [List.mem_cons, List.mem_singleton, List.not_mem_nil, or_false] at ho
    rcases ho with h | h <;> exact OutEvent.noConfusion h
  · rcases runLines_mem dp d r.lines 0 initState _ ho with
      hd | ⟨e3, he3, hf⟩ | ⟨n, a, i2, rr, c, hfl, _⟩
    · exact OutEvent.noConfusion hd
    · injection he3 with h
      subst h
      exact hf
    · exact OutEvent.noConfusion hfl

/-- C2 witness: the theorem applied to a concrete forwarded line. -/
theorem forwarded_line_top_finish_not_tool_calls_w :
    OutEvent.line choiceFinishEvent
      ∈ handle_stream_response idDeps (fun _ => false)
          ⟨false, "", [SseLine.ev choiceFinishEvent]⟩
    ∧ choiceFinishEvent.finish_reason ≠ some "tool_calls" :=
  ⟨by decide, forwarded_line_top_finish_not_tool_calls idDeps (fun _ => false)
      ⟨false, "", [SseLine.ev choiceFinishEvent]⟩ _ choiceFinishEvent (by decide) rfl⟩

/-- C2 counterexample: an event carrying the tool-invocation finish
reason inside the choice object is forwarded unchanged, and a flush
triggered by an event with a top-level tool-invocation finish reason
serializes its carrier before the remap, so both a forwarded line and a
flush line can reach the client with the tool-invocation finish reason
in the payload. -/
theorem choice_finish_not_remapped_cex :
    (handle_stream_response idDeps (fun _ => false)
        ⟨false, "", [SseLine.ev choiceFinishEvent]⟩
      = [OutEvent.line choiceFinishEvent]
     ∧ choiceFinishEvent.choice0.finish_reason = some "tool_calls")
    ∧ ((handle_stream_response idDeps (fun _ => false)
        ⟨false, "", [SseLine.ev fragWithFinishEvent]⟩).head?.bind carrierFinish
      = some (some "tool_calls")) := by
  decide

/-- C9 (amended, first half): every flush the stream handler emits
carries a non-empty accumulated arguments buffer — an empty-argument
fragment never produces a flush at any flush point.  (Its buffered name,
id and reasoning are however not cleared; see the counterexample.) -/
theorem flush_requires_nonempty_args (dp : StreamDeps) (d : Nat → Bool)
    (r : UpstreamResponse) (o : OutEvent) (n a i rr : String) (c : ChatEvent)
    (ho : o ∈ handle_stream_response dp d r) (he : o = OutEvent.flush n a i rr c) :
    a ≠ "" := by
  subst he
  unfold handle_stream_response at ho
  split at ho
  · simp only [List.mem_cons, List.mem_singleton, List.not_mem_nil, or_false] at ho
    rcases ho with h | h <;> exact OutEvent.noConfusion h
  · rcases runLines_mem dp d r.lines 0 initState _ ho with
      hd | ⟨e3, he3, _⟩ | ⟨n2, a2, i2, r2, c2, hfl, hne⟩
    · exact OutEvent.noConfusion hd
    · exact OutEvent.noConfusion he3
    · injection hfl with h1 h2 h3 h4 h5
      subst h2
      exact hne

/-- C9 witness: the theorem applied to a concrete flush of a one-fragment
stream. -/
theorem flush_requires_nonempty_args_w :
    OutEvent.flush "a" "y" "ca" ""
        (setDeltaContent (mkFragEvent 0 ("a", "y", "ca")) "ayca")
      ∈ handle_stream_response idDeps (fun _ => false)
          ⟨false, "", [SseLine.ev (mkFragEvent 0 ("a", "y", "ca")),
            SseLine.ev finishEvent]⟩
    ∧ ("y" : String) ≠ "" :=
  ⟨by decide, flush_requires_nonempty_args idDeps (fun _ => false)
      ⟨false, "", [SseLine.ev (mkFragEvent 0 ("a", "y", "ca")), SseLine.ev finishEvent]⟩
      (OutEvent.flush "a" "y" "ca" ""
        (setDeltaContent (mkFragEvent 0 ("a", "y", "ca")) "ayca"))
      "a" "y" "ca" ""
      (setDeltaContent (mkFragEvent 0 ("a", "y", "ca")) "ayca")
      (by decide) rfl⟩

/-- C9 counterexample: a fragment whose streamed arguments are empty at
its flush point is dropped without a flush, but its accumulated tool name
and call id are not cleared: they are concatenated into the next flush,
so they do end up in a synthetic text event, refuting the claim that they
never produce one. -/
theorem empty_args_fragment_leaks_cex :
    ((handle_stream_response idDeps (fun _ => false)
        ⟨false, "", [SseLine.ev (mkFragEvent 0 ("a", "", "ca")),
          SseLine.ev (mkFragEvent 1 ("b", "x", "cb")),
          SseLine.ev finishEvent]⟩).filterMap flushData
      = [("ab", "x", "cacb", "")])
    ∧ strContains "ab" "a" = true ∧ strContains "cacb" "ca" = true := by
  decide

/-- A guarded flush never changes the stored role. -/
theorem flushGuard_role (dp : StreamDeps) (c : Bool) (st : StreamState) :
    (flushGuard dp c st).2.role = st.role := by
  unfold flushGuard
  split <;> rfl

/-- The assistant block never changes the stored role. -/
theorem assistantBlock_role (dp : StreamDeps) (rid : Option String)
    (st2 : StreamState) (e : ChatEvent) :
    (assistantBlock dp rid st2 e).2.1.role = st2.role := by
  unfold assistantBlock
  split
  · split
    · dsimp only
      rw [flushGuard_role]
    · dsimp only
      rw [flushGuard_role]
  · rfl

/-- The role stored after one data event is always the role the event
established (src/app.py line 184): no later assignment in the iteration
touches it. -/
theorem stepEvent_role (dp : StreamDeps) (st : StreamState) (e : ChatEvent) :
    (stepEvent dp st e).2.role = deltaRole st e.choice0.deltaDict := by
  unfold stepEvent
  dsimp only
  rw [apply_ite StreamState.role]
  dsimp only
  rw [ite_self, flushGuard_role, assistantBlock_role]

/-- When the established role is not assistant the assistant block does
nothing. -/
theorem assistantBlock_nonassist (dp : StreamDeps) (rid : Option String)
    (st2 : StreamState) (e : ChatEvent)
    (h : (rid == some "assistant") = false) :
    assistantBlock dp rid st2 e = ([], st2, false) := by
  unfold assistantBlock
  rw [h]
  simp

/-- When the event does not establish the assistant role, nothing
accumulates: the buffer after the event is empty, or it is the unchanged
old buffer and no flush-before condition held. -/
theorem stepEvent_buffer_nonassist (dp : StreamDeps) (st : StreamState)
    (e : ChatEvent)
    (hrid : (deltaRole st e.choice0.deltaDict == some "assistant") = false) :
    (stepEvent dp st e).2.buffer = ""
    ∨ ((stepEvent dp st e).2.buffer = st.buffer ∧ flushBeforeTrig st e = false) := by
  unfold stepEvent
  dsimp only
  rw [assistantBlock_nonassist dp _ _ e hrid]
  dsimp only
  simp only [Bool.false_eq_true, if_false]
  unfold flushGuard
  split
  · split
    · left; rfl
    · left; rfl
  · rename_i hg1
    split
    · left; rfl
    · have hg1b : (flushBeforeTrig st e && (st.buffer != "")) = false := by
        simpa using hg1
      rcases Bool.and_eq_false_iff.mp hg1b with h | h
      · exact Or.inr ⟨rfl, h⟩
      · left
        show st.buffer = ""
        simpa using h

/-- Preservation of the open-buffer invariant by one data event: if a
non-empty buffer implies the assistant role before the event, the same
holds after it. -/
theorem stepEvent_inv (dp : StreamDeps) (st : StreamState) (e : ChatEvent)
    (h : st.buffer ≠ "" → st.role = some "assistant")
    (hb : (stepEvent dp st e).2.buffer ≠ "") :
    (stepEvent dp st e).2.role = some "assistant" := by
  rw [stepEvent_role]
  by_cases hrid : (deltaRole st e.choice0.deltaDict == some "assistant") = true
  · exact eq_of_beq hrid
  · exfalso
    have hridf : (deltaRole st e.choice0.deltaDict == some "assistant") = false := by
      simpa using hrid
    rcases stepEvent_buffer_nonassist dp st e hridf with h0 | ⟨heq, htrig⟩
    · exact hb h0
    · have hsb : st.buffer ≠ "" := heq ▸ hb
      have hrole : st.role = some "assistant" := h hsb
      have hroleEq : deltaRole st e.choice0.deltaDict = st.role := by
        unfold flushBeforeTrig at htrig
        simp only [Bool.or_eq_false_iff] at htrig
        have := htrig.1.2
        simpa [bne_eq_false_iff_eq] using this
      rw [hroleEq, hrole] at hridf
      simp at hridf

/-- Preservation of the open-buffer invariant by one upstream line. -/
theorem stepLine_inv (dp : StreamDeps) (st : StreamState) (l : SseLine)
    (h : st.buffer ≠ "" → st.role = some "assistant")
    (hb : (stepLine dp st l).2.buffer ≠ "") :
    (stepLine dp st l).2.role = some "assistant" := by
  cases l with
  | other => exact h hb
  | ev e => exact stepEvent_inv dp st e h hb
  | done =>
      by_cases hg : (true && (st.buffer != "")) = true
      · exfalso
        apply hb
        show (flushGuard dp true st).2.buffer = ""
        simp only [flushGuard, hg, if_true]
        rfl
      · have hgf : (true && (st.buffer != "")) = false := by simpa using hg
        have h2 : (stepLine dp st SseLine.done).2 = st := by
          show (flushGuard dp true st).2 = st
          simp [flushGuard, hgf]
        rw [h2] at hb ⊢
        exact h hb

/-- Reachable-state invariant of the stream handler: whenever the
arguments buffer is non-empty (a fragment is open), the stored role is
assistant.  This justifies the role hypothesis of
open_fragment_flushed_first for every state the loop can reach from the
initial one. -/
theorem buffer_open_role_assistant (dp : StreamDeps) :
    ∀ (ls : List SseLine) (st : StreamState),
      (st.buffer ≠ "" → st.role = some "assistant") →
      (runState dp st ls).buffer ≠ "" →
      (runState dp st ls).role = some "assistant" := by
  intro ls
  induction ls with
  | nil => intro st h hb; exact h hb
  | cons l ls ih =>
      intro st h hb
      exact ih (stepLine dp st l).2 (stepLine_inv dp st l h) hb

/-- C4: while a fragment is open (a non-empty buffer; on reachable
states the role is then assistant, see buffer_open_role_assistant), an
event carrying a different choice index, an empty delta, a changed role,
no tool-call fragment, or a tool-call fragment with a changed call index
makes the handler emit, before anything else, the flush of the open
fragment — its name, arguments and id are exactly the accumulated ones,
untouched by this event, while its reasoning already includes this
event's reasoning delta (accumulated at line 175 before the flush
checks). -/
theorem open_fragment_flushed_first (dp : StreamDeps) (st : StreamState)
    (e : ChatEvent) (hbuf : st.buffer ≠ "")
    (hrole : st.role = some "assistant")
    (hcond : (flushBeforeTrig st e || fragIndexChanged st e) = true) :
    ((stepEvent dp st e).1.head?.bind flushData)
      = some (st.tool_name, st.buffer, st.tool_call_id,
              st.reasoning_content_buffer ++ eventReasoning e) := by
  have hb : (st.buffer != "") = true := bne_iff_ne.mpr hbuf
  by_cases htrig : flushBeforeTrig st e = true
  · simp [stepEvent, flushGuard, htrig, hb, create_tool_call, flushData,
      eventReasoning]
  · have htrigf : flushBeforeTrig st e = false := by
      simpa using htrig
    have hidx : fragIndexChanged st e = true := by
      rcases Bool.or_eq_true_iff.mp hcond with h | h
      · exact absurd h htrig
      · exact h
    have hparts : ((e.choice0.index.getD st.choice_index != st.choice_index) = false)
        ∧ (e.choice0.deltaDict.isEmptyDict = false)
        ∧ ((deltaRole st e.choice0.deltaDict != st.role) = false)
        ∧ ((!toolCallsTruthy e.choice0.deltaDict.tool_calls) = false) := by
      have h2 := htrigf
      unfold flushBeforeTrig at h2
      simp only [Bool.or_eq_false_iff] at h2
      exact ⟨h2.1.1.1, h2.1.1.2, h2.1.2, h2.2⟩
    have hroleEq : deltaRole st e.choice0.deltaDict = st.role := by
      have := hparts.2.2.1
      simpa [bne_eq_false_iff_eq] using this
    cases htc : toolCallsHead e.choice0.deltaDict.tool_calls with
    | none => unfold fragIndexChanged at hidx; rw [htc] at hidx; exact absurd hidx (by simp)
    | some tc =>
        have hidx2 : (tc.index != some st.tool_call_index) = true := by
          unfold fragIndexChanged at hidx
          rwa [htc] at hidx
        simp [stepEvent, flushGuard, htrigf, hb, create_tool_call, flushData,
          eventReasoning, assistantBlock, hroleEq, hrole, htc, hidx2]

/-- C4 witness: a concrete open fragment flushed by a terminal event
with an empty delta. -/
theorem open_fragment_flushed_first_w :
    (mkAccSt 0 "x" "nm" "id" "" (some (mkFragEvent 0 ("nm", "x", "id")))).buffer ≠ ""
    ∧ (mkAccSt 0 "x" "nm" "id" "" (some (mkFragEvent 0 ("nm", "x", "id")))).role
        = some "assistant"
    ∧ (flushBeforeTrig (mkAccSt 0 "x" "nm" "id" "" (some (mkFragEvent 0 ("nm", "x", "id")))) finishEvent
        || fragIndexChanged (mkAccSt 0 "x" "nm" "id" "" (some (mkFragEvent 0 ("nm", "x", "id")))) finishEvent) = true
    ∧ ((stepEvent idDeps (mkAccSt 0 "x" "nm" "id" "" (some (mkFragEvent 0 ("nm", "x", "id")))) finishEvent).1.head?.bind flushData)
        = some ("nm", "x", "id", "") :=
  ⟨by decide, rfl, by decide,
    open_fragment_flushed_first idDeps
      (mkAccSt 0 "x" "nm" "id" "" (some (mkFragEvent 0 ("nm", "x", "id"))))
      finishEvent (by decide) rfl (by decide)⟩

/-- A never-firing disconnection signal makes the line loop agree with
the pure loop. -/
theorem runLines_const_false (dp : StreamDeps) :
    ∀ (ls : List SseLine) (i : Nat) (st : StreamState),
      runLines dp (fun _ => false) i st ls = runPure dp st ls := by
  intro ls
  induction ls with
  | nil => intro i st; rfl
  | cons l ls ih =>
      intro i st
      simp only [runLines, runPure, if_false, Bool.false_eq_true]
      rw [ih]

/-- Processing one canonical fragment event of the call with index k
from the accumulating state appends the fragment pieces to the
accumulators, stores the event as the carrier, and forwards the event
unchanged with no flush. -/
theorem stepEvent_frag (dp : StreamDeps) (k : Nat) (t : String × String × String)
    (b n i r : String) (lc : Option ChatEvent) :
    stepEvent dp (mkAccSt k b n i r lc) (mkFragEvent k t)
      = ([OutEvent.line (mkFragEvent k t)],
         mkAccSt k (b ++ t.2.1) (n ++ t.1) (i ++ t.2.2) r
           (some (mkFragEvent k t))) := by
  simp [stepEvent, mkAccSt, mkFragEvent, flushBeforeTrig, deltaRole,
    ChatEvent.choice0, Choice.deltaDict, Delta.isEmptyDict, toolCallsTruthy,
    toolCallsHead, assistantBlock, flushGuard, forwardedEvent, pyTruthyStr,
    eventReasoning, Delta.emptyDict, String.append_empty]

/-- Processing one canonical fragment event from the initial state opens
the fragment and forwards the event unchanged with no flush. -/
theorem stepEvent_initFrag (dp : StreamDeps) (k : Nat)
    (t : String × String × String) :
    stepEvent dp initState (mkFragEvent k t)
      = ([OutEvent.line (mkFragEvent k t)],
         mkAccSt k t.2.1 t.1 t.2.2 "" (some (mkFragEvent k t))) := by
  simp [stepEvent, mkAccSt, initState, mkFragEvent, flushBeforeTrig, deltaRole,
    ChatEvent.choice0, Choice.deltaDict, Delta.isEmptyDict, toolCallsTruthy,
    toolCallsHead, assistantBlock, flushGuard, forwardedEvent, pyTruthyStr,
    eventReasoning, Delta.emptyDict, String.append_empty]

/-- Running the remaining fragment events of one call followed by the
terminal finish-reason event from an accumulating state yields exactly
one flush, whose name, arguments and id are the stored accumulators
extended by the fragment-wise concatenations, provided the final
arguments buffer is non-empty. -/
theorem runPure_frags_flush (dp : StreamDeps) (k : Nat) :
    ∀ (frags : List (String × String × String)) (b n i r : String)
      (lc : Option ChatEvent), b ++ argsCat frags ≠ "" →
      (runPure dp (mkAccSt k b n i r lc)
          (frags.map (fun t => SseLine.ev (mkFragEvent k t))
            ++ [SseLine.ev finishEvent])).filterMap flushData
        = [(n ++ namesCat frags, b ++ argsCat frags, i ++ idsCat frags, r)] := by
  intro frags
  induction frags with
  | nil =>
      intro b n i r lc hb
      have hb2 : b ≠ "" := by simpa [argsCat, catWith, String.append_empty] using hb
      have hbb : (b != "") = true := bne_iff_ne.mpr hb2
      simp only [List.map_nil, List.nil_append, runPure, runPure.eq_1]
      simp [stepLine, stepEvent, mkAccSt, finishEvent, flushBeforeTrig, deltaRole,
        ChatEvent.choice0, Choice.deltaDict, Delta.isEmptyDict, toolCallsTruthy,
        toolCallsHead, assistantBlock, flushGuard, forwardedEvent, pyTruthyStr,
        eventReasoning, Delta.emptyDict, String.append_empty, hbb,
        create_tool_call, flushData, namesCat, argsCat, idsCat, catWith]
  | cons t ts ih =>
      intro b n i r lc hb
      have hb2 : (b ++ t.2.1) ++ argsCat ts ≠ "" := by
        rw [String.append_assoc]
        simpa [argsCat, catWith] using hb
      simp only [List.map_cons, List.cons_append, runPure]
      rw [show stepLine dp (mkAccSt k b n i r lc) (SseLine.ev (mkFragEvent k t))
            = stepEvent dp (mkAccSt k b n i r lc) (mkFragEvent k t) from rfl,
         stepEvent_frag dp k t b n i r lc]
      rw [List.filterMap_append]
      dsimp only
      simp only [List.append_eq]
      rw [ih (b ++ t.2.1) (n ++ t.1) (i ++ t.2.2) r (some (mkFragEvent k t)) hb2]
      simp [flushData, namesCat, argsCat, idsCat, catWith, String.append_assoc]

/-- C3: a stream of N fragment events (N at least 1) building one tool
call with a fixed call index on choice 0, followed by the terminal
finish-reason event, produces exactly one flush, and the name, arguments
and id handed to the flush are the fragment-wise concatenations, in
arrival order, of the streamed pieces (the arguments concatenation being
non-empty, without which the source drops the call, see C9). -/
theorem single_call_stream_single_flush (dp : StreamDeps) (k : Nat)
    (frags : List (String × String × String)) (h1 : frags ≠ [])
    (h2 : argsCat frags ≠ "") :
    ((handle_stream_response dp (fun _ => false)
        ⟨false, "", frags.map (fun t => SseLine.ev (mkFragEvent k t))
          ++ [SseLine.ev finishEvent]⟩).filterMap flushData)
      = [(namesCat frags, argsCat frags, idsCat frags, "")] := by
  rcases frags with _ | ⟨t, ts⟩
  · exact absurd rfl h1
  · have hhandle : handle_stream_response dp (fun _ => false)
        ⟨false, "", (t :: ts).map (fun t => SseLine.ev (mkFragEvent k t))
          ++ [SseLine.ev finishEvent]⟩
        = runPure dp initState
            ((t :: ts).map (fun t => SseLine.ev (mkFragEvent k t))
              ++ [SseLine.ev finishEvent]) := by
      show runLines dp (fun _ => false) 0 initState _ = _
      exact runLines_const_false dp _ 0 initState
    rw [hhandle]
    simp only [List.map_cons, List.cons_append, runPure]
    rw [show stepLine dp initState (SseLine.ev (mkFragEvent k t))
          = stepEvent dp initState (mkFragEvent k t) from rfl,
       stepEvent_initFrag dp k t]
    rw [List.filterMap_append]
    dsimp only
    simp only [List.append_eq]
    have h2b : t.2.1 ++ argsCat ts ≠ "" := by
      simpa [argsCat, catWith] using h2
    rw [runPure_frags_flush dp k ts t.2.1 t.1 t.2.2 "" (some (mkFragEvent k t)) h2b]
    simp [flushData, namesCat, argsCat, idsCat, catWith]

/-- C3 witness: a two-fragment stream with a terminal finish event
yields the single concatenated flush. -/
theorem single_call_stream_single_flush_w :
    ([("re", "pa", "c1"), ("ad", "th", "c2")] : List (String × String × String)) ≠ []
    ∧ argsCat [("re", "pa", "c1"), ("ad", "th", "c2")] ≠ ""
    ∧ ((handle_stream_response idDeps (fun _ => false)
        ⟨false, "", [("re", "pa", "c1"), ("ad", "th", "c2")].map
            (fun t => SseLine.ev (mkFragEvent 0 t))
          ++ [SseLine.ev finishEvent]⟩).filterMap flushData)
      = [(namesCat [("re", "pa", "c1"), ("ad", "th", "c2")],
          argsCat [("re", "pa", "c1"), ("ad", "th", "c2")],
          idsCat [("re", "pa", "c1"), ("ad", "th", "c2")], "")] :=
  ⟨by decide, by decide,
    single_call_stream_single_flush idDeps 0
      [("re", "pa", "c1"), ("ad", "th", "c2")] (by decide) (by decide)⟩

/-- C7 (amended): in the outbound request rewrite the number and order
of messages are preserved; every message after the first undergoes only
the per-message step (spec-modelled tag rewrite followed by the
spec-modelled replacement pass), independently of schema synthesis, which
touches message 0 alone; and that step is the identity on any message
that contains no embedded-tag tool invocation and is not altered by the
configured replacement rules. -/
theorem untagged_messages_pass_through (cfg : RuntimeConfig)
    (build : String → Bool → ParserCtx × String) (rules : List ReplacementRule)
    (m0 : Message) (rest : List Message) (tls : Option (List ToolSchema))
    (tc : Option String) (out : ChatRequest × ParserCtx × (String → String))
    (h : process_request cfg build rules ⟨m0 :: rest, tls, tc⟩ = some out) :
    out.1.messages.length = (m0 :: rest).length
    ∧ out.1.messages.tail = rest.map (outboundMessageStep out.2.1.tool_names rules)
    ∧ ∀ m : Message, hasEmbeddedCall out.2.1.tool_names m = false →
        mapContent (applyRules rules) m.content = m.content →
        outboundMessageStep out.2.1.tool_names rules m = m := by
  unfold process_request at h
  dsimp only at h
  split at h
  · rename_i hcond
    injection h with h
    subst h
    refine ⟨?_, ?_, ?_⟩
    · simp [apply_replacement_to_messages, modify_xml_messages_to_tool_calls]
    · simp only [apply_replacement_to_messages, modify_xml_messages_to_tool_calls,
        List.map_map, List.map_cons, List.tail_cons]
      rfl
    · intro m hTag hRepl
      unfold outboundMessageStep
      rw [hTag]
      simp only [if_false, Bool.false_eq_true]
      rcases m with ⟨mr, mc, mtc⟩
      simp only [Message.mk.injEq]
      exact ⟨trivial, hRepl, trivial⟩
  · exact Option.noConfusion h

/-- C7 witness: a request with an untagged second message, no tool
declarations found and an empty rule set passes through with the second
message unchanged. -/
theorem untagged_messages_pass_through_w :
    process_request cexCfg cexBuild []
        ⟨[⟨"system", MsgContent.str "hello", none⟩,
          ⟨"user", MsgContent.str "hi", none⟩], none, none⟩
      = some (⟨[⟨"system", MsgContent.str "hello", none⟩,
          ⟨"user", MsgContent.str "hi", none⟩], none, none⟩,
          (⟨[], []⟩ : ParserCtx), applyRulesInv [])
    ∧ (⟨[⟨"system", MsgContent.str "hello", none⟩,
          ⟨"user", MsgContent.str "hi", none⟩], none, none⟩ : ChatRequest).messages.length = 2
    ∧ ([⟨"user", MsgContent.str "hi", none⟩] : List Message)
        = [⟨"user", MsgContent.str "hi", none⟩].map (outboundMessageStep [] []) := by
  refine ⟨rfl, rfl, ?_⟩
  have h := untagged_messages_pass_through cexCfg cexBuild []
    ⟨"system", MsgContent.str "hello", none⟩
    [⟨"user", MsgContent.str "hi", none⟩] none none
    (⟨[⟨"system", MsgContent.str "hello", none⟩,
        ⟨"user", MsgContent.str "hi", none⟩], none, none⟩,
      (⟨[], []⟩ : ParserCtx), applyRulesInv []) rfl
  exact h.2.1.symm

/-- C7 counterexample: with a configured replacement rule the outbound
rewrite changes the content of an untagged client message, refuting the
claim that every message without an embedded-tag invocation passes
through with the same content. -/
theorem replacement_changes_untagged_cex :
    (process_request cexCfg cexBuild cexRules cexReq).map
        (fun out => out.1.messages.map (fun m => m.content))
      = some [MsgContent.str "hello", MsgContent.str "say bar now"]
    ∧ hasEmbeddedCall [] ⟨"user", MsgContent.str "say foo now", none⟩ = false
    ∧ MsgContent.str "say bar now" ≠ MsgContent.str "say foo now" := by
  refine ⟨rfl, rfl, by decide⟩

end NTCA
